import Mathlib

/-!
Verification of the streaming session subsystem of the `tardis-rs` client
(`src/machine/client.rs`, `src/machine/models.rs`, `src/models.rs`).

The development shallowly embeds:
- the request-option structs and their serde JSON serialization,
- the websocket read loop of `websocket_conn` as a function from the finite
  sequence of reader results to the list of items the generator yields,
- the `heartbeat` task as an event trace,
and proves the behavioural properties stated in the specification.
-/

namespace TardisRs

/-! ## JSON values (model of the serde_json data model used at the boundary) -/

/-- A JSON value, as produced by the serde serializers of the option structs
and consumed by the tag-dispatching deserializer of `Message`.
Numbers are restricted to naturals because the only numeric field the client
serializes is `timeout_interval_ms : u64`. -/
inductive Json where
  | null
  | bool (b : Bool)
  | num (n : Nat)
  | str (s : String)
  | arr (items : List Json)
  | obj (fields : List (String × Json))
deriving Repr

/-- Hexadecimal digit (uppercase), for the serde_json control-character escape. -/
def hexDigit (n : Nat) : Char :=
  if n < 10 then Char.ofNat (48 + n) else Char.ofNat (55 + n)

/-- Escape of one character inside a JSON string, following serde_json:
quote and backslash get a backslash escape, the control characters
backspace, tab, line feed, form feed and carriage return get their short
escapes, other control characters are written as a unicode escape. -/
def escapeJsonChar (c : Char) : List Char :=
  if c = '"' then ['\\', '"']
  else if c = '\\' then ['\\', '\\']
  else if c = Char.ofNat 8 then ['\\', 'b']
  else if c = Char.ofNat 9 then ['\\', 't']
  else if c = Char.ofNat 10 then ['\\', 'n']
  else if c = Char.ofNat 12 then ['\\', 'f']
  else if c = Char.ofNat 13 then ['\\', 'r']
  else if c.toNat < 32 then
    ['\\', 'u', '0', '0', hexDigit (c.toNat / 16), hexDigit (c.toNat % 16)]
  else [c]

/-- Rendering of a JSON string literal, quotes included. -/
def renderJsonString (s : String) : String :=
  "\"" ++ String.mk (s.data.flatMap escapeJsonChar) ++ "\""

mutual

/-- Compact rendering of a JSON value, as `serde_json::to_string` produces it:
no whitespace, fields in declaration order. -/
def Json.render : Json → String
  | .null => "null"
  | .bool true => "true"
  | .bool false => "false"
  | .num n => Nat.repr n
  | .str s => renderJsonString s
  | .arr items => "[" ++ Json.renderList items ++ "]"
  | .obj fields => "\x7b" ++ Json.renderFields fields ++ "\x7d"

/-- Comma-separated rendering of a list of JSON values. -/
def Json.renderList : List Json → String
  | [] => ""
  | [x] => Json.render x
  | x :: y :: xs => Json.render x ++ "," ++ Json.renderList (y :: xs)

/-- Comma-separated rendering of the fields of a JSON object. -/
def Json.renderFields : List (String × Json) → String
  | [] => ""
  | [(k, v)] => renderJsonString k ++ ":" ++ Json.render v
  | (k, v) :: f :: fs =>
      renderJsonString k ++ ":" ++ Json.render v ++ "," ++ Json.renderFields (f :: fs)

end

/-! ## UTC instants and their chrono serialization

`ReplayNormalizedRequestOptions.from`/`.to` are `chrono::DateTime<Utc>`
values.  chrono is an external collaborator of the repository; its
`Serialize` impl for `DateTime<Utc>` is modelled here from its documented
behaviour: the value is rendered as an RFC 3339 / ISO 8601 instant
`YYYY-MM-DDTHH:MM:SS[.fff[fff[fff]]]Z`, with subseconds printed in groups
of three digits only when the nanosecond part is non-zero, and a literal
`Z` suffix for the UTC offset. -/

/-- A UTC instant in calendar representation, the shape chrono formats from. -/
structure DateTimeUtc where
  year : Nat
  month : Nat
  day : Nat
  hour : Nat
  minute : Nat
  second : Nat
  nanosecond : Nat
deriving Repr, DecidableEq

/-- Left-pad a string with zeros to the given width (chrono's numeric padding). -/
def padZeros (width : Nat) (s : String) : String :=
  String.mk (List.replicate (width - s.length) '0') ++ s

/-- A natural number printed with at least two digits. -/
def pad2 (n : Nat) : String := padZeros 2 (Nat.repr n)

/-- A natural number printed with at least four digits. -/
def pad4 (n : Nat) : String := padZeros 4 (Nat.repr n)

/-- The subsecond part of a chrono RFC 3339 rendering: empty for a whole
second, otherwise a dot followed by 3, 6 or 9 digits depending on the
trailing zeros of the nanosecond count. -/
def renderSubsec (ns : Nat) : String :=
  if ns = 0 then ""
  else if ns % 1000000 = 0 then "." ++ padZeros 3 (Nat.repr (ns / 1000000))
  else if ns % 1000 = 0 then "." ++ padZeros 6 (Nat.repr (ns / 1000))
  else "." ++ padZeros 9 (Nat.repr ns)

/-- The RFC 3339 rendering chrono's serde support produces for a
`DateTime<Utc>`: date, a literal `T`, the time of day, optional
subseconds, and the `Z` suffix. -/
def DateTimeUtc.toRfc3339 (dt : DateTimeUtc) : String :=
  pad4 dt.year ++ "-" ++ pad2 dt.month ++ "-" ++ pad2 dt.day ++ "T" ++
    pad2 dt.hour ++ ":" ++ pad2 dt.minute ++ ":" ++ pad2 dt.second ++
    renderSubsec dt.nanosecond ++ "Z"

/-! ## Exchanges (`src/models.rs`) -/

/-- Supported exchanges on Tardis (`Exchange` in `src/models.rs`); serde
renames every variant to kebab-case on the wire. -/
inductive Exchange where
  | Bitmex | Deribit | BinanceFutures | BinanceDelivery | BinanceOptions
  | Binance | Ftx | OkexFutures | OkexOptions | OkexSwap | Okex
  | HuobiDm | HuobiDmSwap | HuobiDmLinearSwap | Huobi
  | BitfinexDerivatives | Bitfinex | Coinbase | Cryptofacilities | Kraken
  | Bitstamp | Gemini | Poloniex | Bybit | BybitSpot | BybitOptions
  | Phemex | Delta | FtxUs | BinanceUs | GateIoFutures | GateIo | Okcoin
  | Bitflyer | Hitbtc | Coinflex | BinanceJersey | BinanceDex | Upbit
  | Ascendex | Dydx | Serum | Mango | HuobiDmPptions | StarAtlas
  | CryptoCom | CryptoComDerivatives | Kucoin | Bitnomial | WooX
  | BlockchainCom
deriving Repr, DecidableEq

/-- The kebab-case wire name serde gives each `Exchange` variant
(`#[serde(rename_all = "kebab-case")]`). -/
def Exchange.serialName : Exchange → String
  | .Bitmex => "bitmex"
  | .Deribit => "deribit"
  | .BinanceFutures => "binance-futures"
  | .BinanceDelivery => "binance-delivery"
  | .BinanceOptions => "binance-options"
  | .Binance => "binance"
  | .Ftx => "ftx"
  | .OkexFutures => "okex-futures"
  | .OkexOptions => "okex-options"
  | .OkexSwap => "okex-swap"
  | .Okex => "okex"
  | .HuobiDm => "huobi-dm"
  | .HuobiDmSwap => "huobi-dm-swap"
  | .HuobiDmLinearSwap => "huobi-dm-linear-swap"
  | .Huobi => "huobi"
  | .BitfinexDerivatives => "bitfinex-derivatives"
  | .Bitfinex => "bitfinex"
  | .Coinbase => "coinbase"
  | .Cryptofacilities => "cryptofacilities"
  | .Kraken => "kraken"
  | .Bitstamp => "bitstamp"
  | .Gemini => "gemini"
  | .Poloniex => "poloniex"
  | .Bybit => "bybit"
  | .BybitSpot => "bybit-spot"
  | .BybitOptions => "bybit-options"
  | .Phemex => "phemex"
  | .Delta => "delta"
  | .FtxUs => "ftx-us"
  | .BinanceUs => "binance-us"
  | .GateIoFutures => "gate-io-futures"
  | .GateIo => "gate-io"
  | .Okcoin => "okcoin"
  | .Bitflyer => "bitflyer"
  | .Hitbtc => "hitbtc"
  | .Coinflex => "coinflex"
  | .BinanceJersey => "binance-jersey"
  | .BinanceDex => "binance-dex"
  | .Upbit => "upbit"
  | .Ascendex => "ascendex"
  | .Dydx => "dydx"
  | .Serum => "serum"
  | .Mango => "mango"
  | .HuobiDmPptions => "huobi-dm-pptions"
  | .StarAtlas => "star-atlas"
  | .CryptoCom => "crypto-com"
  | .CryptoComDerivatives => "crypto-com-derivatives"
  | .Kucoin => "kucoin"
  | .Bitnomial => "bitnomial"
  | .WooX => "woo-x"
  | .BlockchainCom => "blockchain-com"

/-! ## Request options (`src/machine/models.rs`) -/

/-- `ReplayNormalizedRequestOptions`: the parameters of one replay request.
The `from`/`to` bounds are `DateTime<Utc>` values. -/
structure ReplayNormalizedRequestOptions where
  exchange : Exchange
  symbols : Option (List String)
  «from» : DateTimeUtc
  «to» : DateTimeUtc
  data_types : List String
  with_disconnect_messages : Option Bool
deriving Repr

/-- `StreamNormalizedRequestOptions`: the parameters of one live-stream request. -/
structure StreamNormalizedRequestOptions where
  exchange : Exchange
  symbols : Option (List String)
  data_types : List String
  with_disconnect_messages : Option Bool
  timeout_interval_ms : Option Nat
deriving Repr

/-- The serde JSON serialization of `ReplayNormalizedRequestOptions`:
fields in declaration order, camelCase names, and the two `Option` fields
skipped when `None` (`skip_serializing_if = "Option.is_none"`).  The
`from`/`to` bounds are serialized by chrono as RFC 3339 strings. -/
def serializeReplayOptions (o : ReplayNormalizedRequestOptions) : Json :=
  .obj ([("exchange", .str o.exchange.serialName)]
    ++ (match o.symbols with
        | none => []
        | some ss => [("symbols", .arr (ss.map .str))])
    ++ [("from", .str o.«from».toRfc3339),
        ("to", .str o.«to».toRfc3339),
        ("dataTypes", .arr (o.data_types.map .str))]
    ++ (match o.with_disconnect_messages with
        | none => []
        | some b => [("withDisconnectMessages", .bool b)]))

/-- The serde JSON serialization of `StreamNormalizedRequestOptions`:
camelCase names, optional fields skipped when `None`, and the explicit
rename of the timeout field to `timeoutIntervalMS`. -/
def serializeStreamOptions (o : StreamNormalizedRequestOptions) : Json :=
  .obj ([("exchange", .str o.exchange.serialName)]
    ++ (match o.symbols with
        | none => []
        | some ss => [("symbols", .arr (ss.map .str))])
    ++ [("dataTypes", .arr (o.data_types.map .str))]
    ++ (match o.with_disconnect_messages with
        | none => []
        | some b => [("withDisconnectMessages", .bool b)])
    ++ (match o.timeout_interval_ms with
        | none => []
        | some t => [("timeoutIntervalMS", .num t)]))

/-! ## Errors (`src/machine/client.rs`, `enum Error`) -/

/-- The machine-client error type.  `tungstenite::Error` and
`serde_json::Error` are opaque external error values; both are modelled by
their message string. -/
inductive Error where
  | EmptyOptions
  | ConnectFailed (err : String)
  | ConnectRejected (status : Nat) (reason : String)
  | ConnectionClosed (reason : String)
  | Deserialization (err : String)
deriving Repr, DecidableEq

/-! ## URL building (`urlencoding::encode`, an external collaborator) -/

/-- Percent-encoding of one character, as the `urlencoding` crate does it:
ASCII alphanumerics and `-`, `.`, `_`, `~` pass through, every other
character is replaced by `%` followed by two uppercase hex digits per byte
(modelled at character granularity for the ASCII payloads at hand). -/
def percentEncodeChar (c : Char) : List Char :=
  if c.isAlphanum ∨ c = '-' ∨ c = '.' ∨ c = '_' ∨ c = '~' then [c]
  else ['%', hexDigit (c.toNat / 16 % 16), hexDigit (c.toNat % 16)]

/-- `urlencoding::encode` over a string. -/
def urlencode (s : String) : String :=
  String.mk (s.data.flatMap percentEncodeChar)

/-! ## Opening a session (`Client::replay_normalized` / `Client::stream_normalized`)

Both operations validate the option list, serialize it, build the
connection URL and hand it to `websocket_conn`.  The model returns the
list of externally visible actions the body performed together with the
result, so that "fails fast with no serialization and no connection
attempt" is an observable statement: on success the result carries the URL
the connection attempt would use. -/

/-- One externally visible step of the open operation. -/
inductive OpenAction where
  | serializeOptions
  | buildUrl
  | connect
deriving Repr, DecidableEq

/-- The machine-server client (`Client` in `src/machine/client.rs`), holding
the base URL. -/
structure Client where
  url : String

/-- `Client::replay_normalized`, up to the connection attempt: an empty
options vector fails with `EmptyOptions` before anything else; otherwise
the options are serialized to compact JSON, URL-encoded and embedded in
the `/ws-replay-normalized` query string. -/
def Client.replay_normalized (c : Client)
    (options : List ReplayNormalizedRequestOptions) :
    List OpenAction × Except Error String :=
  if options.length = 0 then
    ([], .error .EmptyOptions)
  else
    let optionsJson := (Json.arr (options.map serializeReplayOptions)).render
    let url := c.url ++ "/ws-replay-normalized?options=" ++ urlencode optionsJson
    ([.serializeOptions, .buildUrl, .connect], .ok url)

/-- `Client::stream_normalized`, up to the connection attempt; same shape as
`replay_normalized` with the `/ws-stream-normalized` path. -/
def Client.stream_normalized (c : Client)
    (options : List StreamNormalizedRequestOptions) :
    List OpenAction × Except Error String :=
  if options.length = 0 then
    ([], .error .EmptyOptions)
  else
    let optionsJson := (Json.arr (options.map serializeStreamOptions)).render
    let url := c.url ++ "/ws-stream-normalized?options=" ++ urlencode optionsJson
    ([.serializeOptions, .buildUrl, .connect], .ok url)

/-! ## WebSocket frames (`tungstenite`) -/

/-- `tungstenite::protocol::frame::coding::CloseCode`. -/
inductive CloseCode where
  | Normal | Away | Protocol | Unsupported | Status | Abnormal | Invalid
  | Policy | Size | Extension | Error | Restart | Again | Tls
  | Reserved (n : Nat) | Iana (n : Nat) | Library (n : Nat) | Bad (n : Nat)
deriving Repr, DecidableEq

/-- `tungstenite::protocol::CloseFrame`: a close code plus a reason string. -/
structure CloseFrame where
  code : CloseCode
  reason : String
deriving Repr, DecidableEq

/-- `tungstenite::Message`: the frame kinds the read loop dispatches on.
Binary payloads are byte lists; a raw `Frame` keeps no structure the loop
looks at. -/
inductive WsMessage where
  | Frame (raw : List Nat)
  | Binary (data : List Nat)
  | Pong (data : List Nat)
  | Ping (data : List Nat)
  | Close (frame : Option CloseFrame)
  | Text (msg : String)
deriving Repr

/-- One result of `reader.next().await`: either a frame or a transport
error (`tungstenite::Error`, modelled by its message).  The read loop's
input is the finite list of these results; exhausting the list models the
reader returning `None` (EOF). -/
abbrev ReaderEvent := Except String WsMessage

/-! ## The read loop of `websocket_conn`

The generator body (client.rs lines 148-188) is embedded as a function
from the list of reader results to the list of items it yields.  The
`?` operator inside the `stream!` generator yields the converted error as
the final item and terminates the stream, so
- a transport error from the reader becomes a final `ConnectFailed` item
  (the `From<tungstenite::Error>` conversion on `msg?`), and
- a JSON decode failure becomes a final `Deserialization` item.
The deserializer `serde_json::from_str::<T>` is the `decode` parameter:
`websocket_conn` is generic over `T: DeserializeOwned`. -/

/-- The items yielded by the read loop of `websocket_conn` on a given
sequence of reader results. -/
def readLoop {T : Type} (decode : String → Except String T) :
    List ReaderEvent → List (Except Error T)
  | [] => [.error (.ConnectionClosed "Unknown reason")]
  | .error e :: _ => [.error (.ConnectFailed e)]
  | .ok m :: rest =>
    match m with
    | .Frame _ | .Binary _ | .Pong _ => readLoop decode rest
    | .Ping _ => readLoop decode rest
    | .Close none => []
    | .Close (some f) =>
        if f.code ≠ CloseCode.Normal then
          [.error (.ConnectionClosed f.reason)]
        else []
    | .Text s =>
        match decode s with
        | .ok v => .ok v :: readLoop decode rest
        | .error e => [.error (.Deserialization e)]

/-- `websocket_conn` up to and including the upgrade check: a failed
`connect_async` is returned as `ConnectFailed`; a response status other
than 101 (Switching Protocols) is returned as `ConnectRejected` with the
body text as reason (or `"Unknown reason"` when there is no body); only a
successful upgrade produces the item sequence of the read loop. -/
def websocketConn {T : Type} (decode : String → Except String T)
    (connectResult : Except String (Nat × Option String))
    (events : List ReaderEvent) :
    Except Error (List (Except Error T)) :=
  match connectResult with
  | .error e => .error (.ConnectFailed e)
  | .ok (status, body) =>
    if status ≠ 101 then
      .error (.ConnectRejected status
        (match body with
         | some resp => resp
         | none => "Unknown reason"))
    else
      .ok (readLoop decode events)

/-! ## The heartbeat task (`heartbeat` in `src/machine/client.rs`)

The task body is
```
let mut interval = interval(10s);
loop {
  interval.tick().await;
  let mut count = 3;
  let mut interval = interval(1s);
  while count > 0 {
    interval.tick().await;
    let _ = sender.send(Ping(vec![]));
    count -= 1;
  }
}
```
Two facts of the source matter.  First, `sender.send(..)` merely builds a
future; in Rust a future does nothing until it is awaited or polled, and
this one is bound to `_` and dropped on the same line, so no ping frame
ever reaches the write half.  The trace model records the construction and
the drop as separate events, and a would-be `awaitSendFuture` event (the
one `sender.send(..).await` would produce, and the only event that writes
to the sink) never occurs.  Second, the `loop` has no `break`, `return` or
fallible operation, so the body never terminates. -/

/-- One event in the heartbeat task's trace. -/
inductive HbEvent where
  | tickOuter
  | tickInner
  | createSendFuture
  | dropSendFuture
  | awaitSendFuture
deriving Repr, DecidableEq

/-- The trace of the inner retry loop (`while count > 0`) started with the
given count: tick the 1-second interval, build the ping-send future, drop
it unawaited, decrement. -/
def heartbeatBurst : Nat → List HbEvent
  | 0 => []
  | n + 1 =>
      [HbEvent.tickInner, HbEvent.createSendFuture, HbEvent.dropSendFuture]
        ++ heartbeatBurst n

/-- The trace of the first `n` iterations of the outer `loop`: each
iteration ticks the 10-second interval and runs a burst with count 3. -/
def heartbeatTrace : Nat → List HbEvent
  | 0 => []
  | n + 1 => heartbeatTrace n ++ [HbEvent.tickOuter] ++ heartbeatBurst 3

/-- The number of ping frames actually transmitted on the write half during
a trace: one per awaited send. -/
def sentPings (tr : List HbEvent) : Nat :=
  tr.countP (fun e => e = HbEvent.awaitSendFuture)

/-- The heartbeat loop interpreted with fuel.  The state is the remaining
inner count; state `0` re-enters the outer loop.  `some ()` would mean the
task returned, `none` means it is still running when the fuel runs out.
The body has no exit path, so the run never returns. -/
def heartbeatRun : Nat → Nat → Option Unit
  | 0, _ => none
  | fuel + 1, 0 => heartbeatRun fuel 3
  | fuel + 1, n + 1 => heartbeatRun fuel n

/-! ## Decoding the `Message` discriminant (`src/machine/models.rs`)

`Message` is an internally tagged enum
(`#[serde(rename_all = "snake_case", tag = "type")]`): the deserializer
reads the `type` field of a JSON object and dispatches on the six
snake_case variant names.  The tag dispatch is embedded here; the field
decoding of each variant body is irrelevant to the claims. -/

/-- The variants of `Message`, as selected by the `type` tag. -/
inductive MessageTag where
  | trade | book_change | derivative_ticker | book_snapshot | trade_bar
  | disconnect
deriving Repr, DecidableEq

/-- The snake_case tag string of each `Message` variant. -/
def messageTagOfString (s : String) : Option MessageTag :=
  if s = "trade" then some .trade
  else if s = "book_change" then some .book_change
  else if s = "derivative_ticker" then some .derivative_ticker
  else if s = "book_snapshot" then some .book_snapshot
  else if s = "trade_bar" then some .trade_bar
  else if s = "disconnect" then some .disconnect
  else none

/-- The tag-dispatch step of deserializing a `Message` from a JSON value:
a non-object is rejected, a missing `type` field is rejected, a
non-string or unknown tag is rejected, a known tag selects the variant. -/
def decodeMessageTag : Json → Except String MessageTag
  | .obj fields =>
    match fields.lookup "type" with
    | none => .error "missing field type"
    | some (.str s) =>
      match messageTagOfString s with
      | some t => .ok t
      | none => .error ("unknown variant " ++ s)
    | some _ => .error "invalid type tag: expected a string"
  | _ => .error "invalid type: expected a map"

/-! ## Classification of reader events, for stating the loop's behaviour -/

/-- An event the read loop survives: an ignorable frame (raw, binary,
pong, ping) or a text frame whose payload decodes. -/
def nonTerminal {T : Type} (decode : String → Except String T) :
    ReaderEvent → Bool
  | .ok (.Frame _) | .ok (.Binary _) | .ok (.Pong _) | .ok (.Ping _) => true
  | .ok (.Text s) =>
    match decode s with
    | .ok _ => true
    | .error _ => false
  | _ => false

/-- A text frame whose payload decodes successfully. -/
def isOkText {T : Type} (decode : String → Except String T) :
    ReaderEvent → Bool
  | .ok (.Text s) =>
    match decode s with
    | .ok _ => true
    | .error _ => false
  | _ => false

/-- The item a non-terminal event contributes to the sequence: one `Ok`
for a decoded text frame, nothing for an ignorable frame. -/
def emitOf {T : Type} (decode : String → Except String T) :
    ReaderEvent → Option (Except Error T)
  | .ok (.Text s) =>
    match decode s with
    | .ok v => some (.ok v)
    | .error _ => none
  | _ => none

/-- Whether a sequence item is an error item. -/
def isErrorItem {T : Type} : Except Error T → Bool
  | .error _ => true
  | .ok _ => false

/-- The final items contributed by the first terminal event of the input
(or by EOF when every event is non-terminal): the closing trailer of the
sequence. -/
def trailer {T : Type} (decode : String → Except String T)
    (evs : List ReaderEvent) : List (Except Error T) :=
  match evs.dropWhile (nonTerminal decode) with
  | [] => [.error (.ConnectionClosed "Unknown reason")]
  | .error e :: _ => [.error (.ConnectFailed e)]
  | .ok (.Close none) :: _ => []
  | .ok (.Close (some f)) :: _ =>
      if f.code ≠ CloseCode.Normal then [.error (.ConnectionClosed f.reason)]
      else []
  | .ok (.Text s) :: _ =>
      match decode s with
      | .error e => [.error (.Deserialization e)]
      | .ok _ => []
  | .ok _ :: _ => []

/-- One consumer demand against the suspended generator: the reader is
polled until the next item is produced (ignorable frames are consumed
silently) or the loop exits with no further item.  The returned state is
the unconsumed suffix, or `none` when the loop has exited. -/
def wsNext {T : Type} (decode : String → Except String T) :
    List ReaderEvent → Option (Except Error T × Option (List ReaderEvent))
  | [] => some (.error (.ConnectionClosed "Unknown reason"), none)
  | .error e :: _ => some (.error (.ConnectFailed e), none)
  | .ok m :: rest =>
    match m with
    | .Frame _ | .Binary _ | .Pong _ | .Ping _ => wsNext decode rest
    | .Close none => none
    | .Close (some f) =>
        if f.code ≠ CloseCode.Normal then
          some (.error (.ConnectionClosed f.reason), none)
        else none
    | .Text s =>
        match decode s with
        | .ok v => some (.ok v, some rest)
        | .error e => some (.error (.Deserialization e), none)

/-- A concrete deserializer used to instantiate the generic read loop in
witnesses: the payload `"msg"` decodes to `7`, everything else fails. -/
def exampleDecode (s : String) : Except String Nat :=
  if s = "msg" then .ok 7 else .error "bad json"

/-- The field of a JSON object with the given key (none on a non-object),
used to inspect the serialized request options. -/
def Json.lookupField : Json → String → Option Json
  | .obj fields, key => fields.lookup key
  | _, _ => none

/-- The replay options of the repository's own `test_replay_normalized_trade`
test, used as a concrete instantiation. -/
def exampleReplayOptions : ReplayNormalizedRequestOptions where
  exchange := Exchange.Bybit
  symbols := some ["BTCUSDT"]
  «from» := ⟨2022, 10, 1, 0, 0, 0, 0⟩
  «to» := ⟨2022, 10, 2, 0, 0, 0, 0⟩
  data_types := ["trade"]
  with_disconnect_messages := none

/-! ## Helper lemmas about the read loop -/

theorem readLoop_cons_nonTerminal {T : Type} (decode : String → Except String T)
    (e : ReaderEvent) (evs : List ReaderEvent)
    (h : nonTerminal decode e = true) :
    readLoop decode (e :: evs) = (emitOf decode e).toList ++ readLoop decode evs := by
  cases e with
  | error err => simp [nonTerminal] at h
  | ok m =>
    cases m with
    | Frame r => simp [readLoop, emitOf]
    | Binary d => simp [readLoop, emitOf]
    | Pong d => simp [readLoop, emitOf]
    | Ping d => simp [readLoop, emitOf]
    | Close f => simp [nonTerminal] at h
    | Text s =>
      cases hd : decode s with
      | ok v => simp [readLoop, emitOf, hd]
      | error err => simp [nonTerminal, hd] at h

theorem readLoop_append_nonTerminal {T : Type} (decode : String → Except String T)
    (pre evs : List ReaderEvent)
    (h : ∀ e ∈ pre, nonTerminal decode e = true) :
    readLoop decode (pre ++ evs)
      = pre.filterMap (emitOf decode) ++ readLoop decode evs := by
  induction pre with
  | nil => simp
  | cons e pre ih =>
    have he : nonTerminal decode e = true := h e (List.mem_cons_self e pre)
    have hrest : ∀ x ∈ pre, nonTerminal decode x = true :=
      fun x hx => h x (List.mem_cons_of_mem e hx)
    rw [List.cons_append, readLoop_cons_nonTerminal decode e (pre ++ evs) he,
      ih hrest, List.filterMap_cons]
    cases hm : emitOf decode e with
    | none => simp
    | some it => simp

theorem emitOf_items_are_ok {T : Type} (decode : String → Except String T)
    (pre : List ReaderEvent) :
    ∀ it ∈ pre.filterMap (emitOf decode), isErrorItem it = false := by
  intro it hit
  rcases List.mem_filterMap.mp hit with ⟨e, _, hm⟩
  cases e with
  | error err => simp [emitOf] at hm
  | ok m =>
    cases m with
    | Text s =>
      cases hd : decode s with
      | ok v => simp [emitOf, hd] at hm; simp [← hm, isErrorItem]
      | error err => simp [emitOf, hd] at hm
    | Frame r => simp [emitOf] at hm
    | Binary d => simp [emitOf] at hm
    | Pong d => simp [emitOf] at hm
    | Ping d => simp [emitOf] at hm
    | Close f => simp [emitOf] at hm

theorem countP_error_filterMap_emitOf {T : Type} (decode : String → Except String T)
    (pre : List ReaderEvent) :
    (pre.filterMap (emitOf decode)).countP isErrorItem = 0 := by
  refine List.countP_eq_zero.mpr ?_
  intro it hit
  simp [emitOf_items_are_ok decode pre it hit]

theorem filterMap_emitOf_length_of_okText {T : Type}
    (decode : String → Except String T) (evs : List ReaderEvent)
    (h : ∀ e ∈ evs, isOkText decode e = true) :
    (evs.filterMap (emitOf decode)).length = evs.length := by
  induction evs with
  | nil => simp
  | cons e evs ih =>
    have he : isOkText decode e = true := h e (List.mem_cons_self e evs)
    have hrest : ∀ x ∈ evs, isOkText decode x = true :=
      fun x hx => h x (List.mem_cons_of_mem e hx)
    cases e with
    | error err => simp [isOkText] at he
    | ok m =>
      cases m with
      | Text s =>
        cases hd : decode s with
        | ok v => simp [List.filterMap_cons, emitOf, hd, ih hrest]
        | error err => simp [isOkText, hd] at he
      | Frame r => simp [isOkText] at he
      | Binary d => simp [isOkText] at he
      | Pong d => simp [isOkText] at he
      | Ping d => simp [isOkText] at he
      | Close f => simp [isOkText] at he

theorem isOkText_nonTerminal {T : Type} (decode : String → Except String T)
    (e : ReaderEvent) (h : isOkText decode e = true) :
    nonTerminal decode e = true := by
  cases e with
  | error err => simp [isOkText] at h
  | ok m =>
    cases m with
    | Text s =>
      cases hd : decode s with
      | ok v => simp [nonTerminal, hd]
      | error err => simp [isOkText, hd] at h
    | Frame r => simp [nonTerminal]
    | Binary d => simp [nonTerminal]
    | Pong d => simp [nonTerminal]
    | Ping d => simp [nonTerminal]
    | Close f => simp [isOkText] at h

theorem readLoop_eq_ordered_emission {T : Type} (decode : String → Except String T)
    (evs : List ReaderEvent) :
    readLoop decode evs
      = (evs.takeWhile (nonTerminal decode)).filterMap (emitOf decode)
        ++ trailer decode evs := by
  induction evs with
  | nil => simp [readLoop, trailer]
  | cons e rest ih =>
    cases hnt : nonTerminal decode e with
    | true =>
      have ht : (e :: rest).takeWhile (nonTerminal decode)
          = e :: rest.takeWhile (nonTerminal decode) := by
        simp [List.takeWhile_cons, hnt]
      have hdw : trailer decode (e :: rest) = trailer decode rest := by
        simp [trailer, List.dropWhile_cons, hnt]
      rw [readLoop_cons_nonTerminal decode e rest hnt, ht, hdw, List.filterMap_cons]
      cases hm : emitOf decode e with
      | none => simpa using ih
      | some it => simpa using ih
    | false =>
      have ht : (e :: rest).takeWhile (nonTerminal decode) = [] := by
        simp [List.takeWhile_cons, hnt]
      have hdw : (e :: rest).dropWhile (nonTerminal decode) = e :: rest := by
        simp [List.dropWhile_cons, hnt]
      rw [ht, List.filterMap_nil, List.nil_append]
      cases e with
      | error err => simp [readLoop, trailer, hdw]
      | ok m =>
        cases m with
        | Frame r => simp [nonTerminal] at hnt
        | Binary d => simp [nonTerminal] at hnt
        | Pong d => simp [nonTerminal] at hnt
        | Ping d => simp [nonTerminal] at hnt
        | Close f =>
          cases f with
          | none => simp [readLoop, trailer, hdw]
          | some cf => simp [readLoop, trailer, hdw]
        | Text s =>
          cases hd : decode s with
          | ok v => simp [nonTerminal, hd] at hnt
          | error err => simp [readLoop, trailer, hdw, hd]

theorem readLoop_eq_wsNext_step {T : Type} (decode : String → Except String T)
    (evs : List ReaderEvent) :
    readLoop decode evs
      = (match wsNext decode evs with
         | none => []
         | some (it, none) => [it]
         | some (it, some rest) => it :: readLoop decode rest) := by
  induction evs with
  | nil => simp [readLoop, wsNext]
  | cons e rest ih =>
    cases e with
    | error err => simp [readLoop, wsNext]
    | ok m =>
      cases m with
      | Frame r => simpa [readLoop, wsNext] using ih
      | Binary d => simpa [readLoop, wsNext] using ih
      | Pong d => simpa [readLoop, wsNext] using ih
      | Ping d => simpa [readLoop, wsNext] using ih
      | Close f =>
        cases f with
        | none => simp [readLoop, wsNext]
        | some cf =>
          by_cases hc : cf.code = CloseCode.Normal
          · simp [readLoop, wsNext, hc]
          · simp [readLoop, wsNext, hc]
      | Text s =>
        cases hd : decode s with
        | ok v => simp [readLoop, wsNext, hd]
        | error err => simp [readLoop, wsNext, hd]

/-! ## Claim theorems -/

/-- C1: when the read loop reaches a close frame, a close code of Normal
ends the sequence with zero error items, any other close code ends it
with exactly one `ConnectionClosed` error carrying the frame's reason,
and a close frame with no payload ends the sequence cleanly with no
error item. -/
theorem close_frame_semantics {T : Type} (decode : String → Except String T)
    (pre rest : List ReaderEvent)
    (hpre : ∀ e ∈ pre, nonTerminal decode e = true)
    (code : CloseCode) (reason : String) :
    (readLoop decode
        (pre ++ Except.ok (WsMessage.Close (some ⟨CloseCode.Normal, reason⟩)) :: rest)).countP
      isErrorItem = 0
    ∧ (code ≠ CloseCode.Normal →
        readLoop decode
            (pre ++ Except.ok (WsMessage.Close (some ⟨code, reason⟩)) :: rest)
          = pre.filterMap (emitOf decode)
            ++ [Except.error (Error.ConnectionClosed reason)]
        ∧ (readLoop decode
            (pre ++ Except.ok (WsMessage.Close (some ⟨code, reason⟩)) :: rest)).countP
          isErrorItem = 1)
    ∧ (readLoop decode (pre ++ Except.ok (WsMessage.Close none) :: rest)).countP
      isErrorItem = 0 := by
  refine ⟨?_, ?_, ?_⟩
  · rw [readLoop_append_nonTerminal decode pre _ hpre]
    have hhead :
        readLoop decode
            (Except.ok (WsMessage.Close (some ⟨CloseCode.Normal, reason⟩)) :: rest)
          = ([] : List (Except Error T)) := by
      simp [readLoop]
    rw [hhead, List.countP_append, countP_error_filterMap_emitOf]
    simp
  · intro hc
    have hhead :
        readLoop decode (Except.ok (WsMessage.Close (some ⟨code, reason⟩)) :: rest)
          = [Except.error (Error.ConnectionClosed reason)] := by
      simp [readLoop, hc]
    refine ⟨?_, ?_⟩
    · rw [readLoop_append_nonTerminal decode pre _ hpre, hhead]
    · rw [readLoop_append_nonTerminal decode pre _ hpre, hhead,
        List.countP_append, countP_error_filterMap_emitOf]
      simp [isErrorItem]
  · rw [readLoop_append_nonTerminal decode pre _ hpre]
    have hhead :
        readLoop decode (Except.ok (WsMessage.Close none) :: rest)
          = ([] : List (Except Error T)) := by
      simp [readLoop]
    rw [hhead, List.countP_append, countP_error_filterMap_emitOf]
    simp

/-- Witness for C1 at a concrete session: one decoded text frame followed
by a close frame, with an abnormal close code `Away`. -/
theorem close_frame_semantics_witness :
    (∀ e ∈ [Except.ok (WsMessage.Text "msg")], nonTerminal exampleDecode e = true)
    ∧ ((readLoop exampleDecode
          ([Except.ok (WsMessage.Text "msg")]
            ++ Except.ok (WsMessage.Close (some ⟨CloseCode.Normal, "bye"⟩)) :: [])).countP
        isErrorItem = 0
      ∧ (CloseCode.Away ≠ CloseCode.Normal →
          readLoop exampleDecode
              ([Except.ok (WsMessage.Text "msg")]
                ++ Except.ok (WsMessage.Close (some ⟨CloseCode.Away, "bye"⟩)) :: [])
            = [Except.ok (WsMessage.Text "msg")].filterMap (emitOf exampleDecode)
              ++ [Except.error (Error.ConnectionClosed "bye")]
          ∧ (readLoop exampleDecode
              ([Except.ok (WsMessage.Text "msg")]
                ++ Except.ok (WsMessage.Close (some ⟨CloseCode.Away, "bye"⟩)) :: [])).countP
            isErrorItem = 1)
      ∧ (readLoop exampleDecode
          ([Except.ok (WsMessage.Text "msg")]
            ++ Except.ok (WsMessage.Close none) :: [])).countP isErrorItem = 0) :=
  ⟨by decide,
    close_frame_semantics exampleDecode [Except.ok (WsMessage.Text "msg")] []
      (by decide) CloseCode.Away "bye"⟩

/-- C2: a text frame is JSON-decoded; a successful decode yields exactly
one `Ok` item and the loop continues on the remaining events, a failed
decode yields exactly one final `Deserialization` error and the sequence
ends.  A JSON object without a `type` field, or with an unknown `type`
tag, is a decode failure of the `Message` deserializer. -/
theorem text_frame_decoding {T : Type} (decode : String → Except String T)
    (s : String) (rest : List ReaderEvent) :
    (∀ v, decode s = Except.ok v →
        readLoop decode (Except.ok (WsMessage.Text s) :: rest)
          = Except.ok v :: readLoop decode rest)
    ∧ (∀ e, decode s = Except.error e →
        readLoop decode (Except.ok (WsMessage.Text s) :: rest)
          = [Except.error (Error.Deserialization e)])
    ∧ (∀ fields : List (String × Json), fields.lookup "type" = none →
        decodeMessageTag (Json.obj fields) = Except.error "missing field type")
    ∧ (∀ (fields : List (String × Json)) (tag : String),
        fields.lookup "type" = some (Json.str tag) →
        messageTagOfString tag = none →
        decodeMessageTag (Json.obj fields)
          = Except.error ("unknown variant " ++ tag)) := by
  refine ⟨?_, ?_, ?_, ?_⟩
  · intro v hv; simp [readLoop, hv]
  · intro e he; simp [readLoop, he]
  · intro fields hf; simp [decodeMessageTag, hf]
  · intro fields tag hf ht; simp [decodeMessageTag, hf, ht]

/-- Witness for C2: a decodable payload, an undecodable payload, an object
without a discriminant and an object with an unknown discriminant. -/
theorem text_frame_decoding_witness :
    (exampleDecode "msg" = Except.ok 7
      ∧ readLoop exampleDecode [Except.ok (WsMessage.Text "msg")]
          = Except.ok 7 :: readLoop exampleDecode [])
    ∧ (exampleDecode "oops" = Except.error "bad json"
      ∧ readLoop exampleDecode [Except.ok (WsMessage.Text "oops"),
            Except.ok (WsMessage.Text "msg")]
          = [Except.error (Error.Deserialization "bad json")])
    ∧ ([("data", Json.num 1)].lookup "type" = none
      ∧ decodeMessageTag (Json.obj [("data", Json.num 1)])
          = Except.error "missing field type")
    ∧ ([("type", Json.str "tradez")].lookup "type" = some (Json.str "tradez")
      ∧ messageTagOfString "tradez" = none
      ∧ decodeMessageTag (Json.obj [("type", Json.str "tradez")])
          = Except.error ("unknown variant " ++ "tradez")) :=
  ⟨⟨by rfl,
      (text_frame_decoding exampleDecode "msg" []).1 7 (by rfl)⟩,
    ⟨by rfl,
      (text_frame_decoding exampleDecode "oops"
        [Except.ok (WsMessage.Text "msg")]).2.1 "bad json" (by rfl)⟩,
    ⟨by rfl,
      (text_frame_decoding exampleDecode "x" []).2.2.1 [("data", Json.num 1)] rfl⟩,
    ⟨rfl, by rfl,
      (text_frame_decoding exampleDecode "x" []).2.2.2
        [("type", Json.str "tradez")] "tradez" rfl (by rfl)⟩⟩

/-- C3: with an empty options vector both open operations fail with
`EmptyOptions` at once: no serialization, no URL building and no
connection attempt appears in the action trace, and no stream is
produced. -/
theorem empty_options_fail_fast (c : Client)
    (ro : List ReplayNormalizedRequestOptions)
    (so : List StreamNormalizedRequestOptions)
    (hr : ro.length = 0) (hs : so.length = 0) :
    c.replay_normalized ro = ([], Except.error Error.EmptyOptions)
    ∧ c.stream_normalized so = ([], Except.error Error.EmptyOptions) := by
  constructor
  · simp [Client.replay_normalized, hr]
  · simp [Client.stream_normalized, hs]

/-- Witness for C3 at the empty options vectors. -/
theorem empty_options_fail_fast_witness :
    ([] : List ReplayNormalizedRequestOptions).length = 0
    ∧ ([] : List StreamNormalizedRequestOptions).length = 0
    ∧ (Client.replay_normalized ⟨"ws://machine"⟩ []
          = ([], Except.error Error.EmptyOptions)
      ∧ Client.stream_normalized ⟨"ws://machine"⟩ []
          = ([], Except.error Error.EmptyOptions)) :=
  ⟨rfl, rfl, empty_options_fail_fast ⟨"ws://machine"⟩ [] [] rfl rfl⟩

/-- C4: when the reader reports EOF while every received event was
survivable, the sequence is the decoded items followed by exactly one
`ConnectionClosed` error with reason `"Unknown reason"`; after `n`
successfully decoded text frames the sequence has exactly `n + 1` items. -/
theorem eof_unknown_reason {T : Type} (decode : String → Except String T)
    (evs : List ReaderEvent)
    (h : ∀ e ∈ evs, nonTerminal decode e = true) :
    readLoop decode evs
      = evs.filterMap (emitOf decode)
        ++ [Except.error (Error.ConnectionClosed "Unknown reason")]
    ∧ ((∀ e ∈ evs, isOkText decode e = true) →
        (readLoop decode evs).length = evs.length + 1) := by
  have hmain : readLoop decode evs
      = evs.filterMap (emitOf decode)
        ++ [Except.error (Error.ConnectionClosed "Unknown reason")] := by
    have happ := readLoop_append_nonTerminal decode evs [] h
    simpa [readLoop] using happ
  refine ⟨hmain, ?_⟩
  intro hok
  rw [hmain, List.length_append, filterMap_emitOf_length_of_okText decode evs hok]
  simp

/-- Witness for C4: one decoded text frame followed by EOF gives exactly
two items, `Ok` then `ConnectionClosed "Unknown reason"`. -/
theorem eof_unknown_reason_witness :
    (∀ e ∈ [Except.ok (WsMessage.Text "msg")], nonTerminal exampleDecode e = true)
    ∧ (readLoop exampleDecode [Except.ok (WsMessage.Text "msg")]
        = [Except.ok (WsMessage.Text "msg")].filterMap (emitOf exampleDecode)
          ++ [Except.error (Error.ConnectionClosed "Unknown reason")]
      ∧ ((∀ e ∈ [Except.ok (WsMessage.Text "msg")], isOkText exampleDecode e = true) →
          (readLoop exampleDecode [Except.ok (WsMessage.Text "msg")]).length
            = ([Except.ok (WsMessage.Text "msg")] : List ReaderEvent).length + 1)) :=
  ⟨by decide,
    eof_unknown_reason exampleDecode [Except.ok (WsMessage.Text "msg")] (by decide)⟩

/-- C5: the produced sequence is the concatenation, in arrival order, of
the items contributed by the processed frames, closed by the items of the
first terminal event (or EOF) — no reordering — and it is also produced
demand by demand: each consumer demand delivers the next item through one
`wsNext` step which consumes reader events only up to the frame that
generated the item. -/
theorem frame_arrival_order {T : Type} (decode : String → Except String T)
    (evs : List ReaderEvent) :
    readLoop decode evs
      = (evs.takeWhile (nonTerminal decode)).filterMap (emitOf decode)
        ++ trailer decode evs
    ∧ readLoop decode evs
      = (match wsNext decode evs with
         | none => []
         | some (it, none) => [it]
         | some (it, some rest) => it :: readLoop decode rest) :=
  ⟨readLoop_eq_ordered_emission decode evs, readLoop_eq_wsNext_step decode evs⟩

/-- C6: raw, binary, pong and ping frames yield no item; the loop
continues with the remaining events, so these frames never contribute an
item to the decoded sequence. -/
theorem ignorable_frames_yield_nothing {T : Type}
    (decode : String → Except String T) (rest : List ReaderEvent)
    (raw d p q : List Nat) :
    readLoop decode (Except.ok (WsMessage.Frame raw) :: rest) = readLoop decode rest
    ∧ readLoop decode (Except.ok (WsMessage.Binary d) :: rest) = readLoop decode rest
    ∧ readLoop decode (Except.ok (WsMessage.Pong p) :: rest) = readLoop decode rest
    ∧ readLoop decode (Except.ok (WsMessage.Ping q) :: rest) = readLoop decode rest :=
  ⟨by simp [readLoop], by simp [readLoop], by simp [readLoop], by simp [readLoop]⟩

/-- The per-burst counts of the heartbeat trace, evaluated on the concrete
burst of three retries. -/
theorem heartbeatBurst_counts :
    sentPings (heartbeatBurst 3) = 0
    ∧ (heartbeatBurst 3).countP (fun e => e = HbEvent.createSendFuture) = 3 := by
  constructor <;> rfl

theorem sentPings_heartbeatTrace (n : Nat) : sentPings (heartbeatTrace n) = 0 := by
  induction n with
  | zero => rfl
  | succ n ih =>
    have hb : sentPings (heartbeatBurst 3) = 0 := heartbeatBurst_counts.1
    have ho : sentPings [HbEvent.tickOuter] = 0 := rfl
    simp only [heartbeatTrace, sentPings, List.countP_append] at ih hb ho ⊢
    omega

theorem createdPings_heartbeatTrace (n : Nat) :
    (heartbeatTrace n).countP (fun e => e = HbEvent.createSendFuture) = 3 * n := by
  induction n with
  | zero => rfl
  | succ n ih =>
    have hb : (heartbeatBurst 3).countP
        (fun e => e = HbEvent.createSendFuture) = 3 := heartbeatBurst_counts.2
    have ho : ([HbEvent.tickOuter]).countP
        (fun e => e = HbEvent.createSendFuture) = 0 := by rfl
    simp only [heartbeatTrace, List.countP_append]
    omega

/-- C7 (against the claim): in every prefix of the heartbeat task's run,
each 10-second period builds the ping-send future three times, but the
future is dropped unawaited every time, so the number of ping frames
actually sent on the write half is zero — in particular always below the
three attempts per period the claim promises to observe. -/
theorem heartbeat_pings_never_sent (n : Nat) :
    sentPings (heartbeatTrace n) = 0
    ∧ (heartbeatTrace n).countP (fun e => e = HbEvent.createSendFuture) = 3 * n
    ∧ sentPings (heartbeatTrace n) < 3 := by
  refine ⟨sentPings_heartbeatTrace n, createdPings_heartbeatTrace n, ?_⟩
  rw [sentPings_heartbeatTrace n]
  omega

/-- C9 (against the claim): the heartbeat loop has no exit path — run with
any amount of fuel from any inner-count state, it is still running when
the fuel is exhausted, so the spawned task never terminates and outlives
any session that drops its stream. -/
theorem heartbeat_never_terminates (fuel s : Nat) :
    heartbeatRun fuel s = none := by
  induction fuel generalizing s with
  | zero => rfl
  | succ fuel ih =>
    cases s with
    | zero => simpa [heartbeatRun] using ih 3
    | succ n => simpa [heartbeatRun] using ih n

/-- Every item of the read loop's sequence is an `Ok`, a
`ConnectionClosed`, a `Deserialization`, or a `ConnectFailed` wrapping a
mid-stream transport error from the reader. -/
theorem readLoop_item_shape {T : Type} (decode : String → Except String T) :
    ∀ (evs : List ReaderEvent) (it : Except Error T), it ∈ readLoop decode evs →
      (∃ v, it = Except.ok v)
      ∨ (∃ r, it = Except.error (Error.ConnectionClosed r))
      ∨ (∃ e, it = Except.error (Error.Deserialization e))
      ∨ (∃ e, it = Except.error (Error.ConnectFailed e)) := by
  intro evs
  induction evs with
  | nil =>
    intro it h
    simp only [readLoop, List.mem_singleton] at h
    exact Or.inr (Or.inl ⟨_, h⟩)
  | cons e rest ih =>
    intro it h
    cases e with
    | error err =>
      simp only [readLoop, List.mem_singleton] at h
      exact Or.inr (Or.inr (Or.inr ⟨_, h⟩))
    | ok m =>
      cases m with
      | Frame r => exact ih it (by simpa [readLoop] using h)
      | Binary d => exact ih it (by simpa [readLoop] using h)
      | Pong d => exact ih it (by simpa [readLoop] using h)
      | Ping d => exact ih it (by simpa [readLoop] using h)
      | Close f =>
        cases f with
        | none => simp [readLoop] at h
        | some cf =>
          by_cases hc : cf.code = CloseCode.Normal
          · simp [readLoop, hc] at h
          · simp only [readLoop, hc, ne_eq, not_false_iff, if_true,
              List.mem_singleton] at h
            exact Or.inr (Or.inl ⟨_, by simpa using h⟩)
      | Text s =>
        cases hd : decode s with
        | ok v =>
          have hr : readLoop decode (Except.ok (WsMessage.Text s) :: rest)
              = Except.ok v :: readLoop decode rest := by simp [readLoop, hd]
          rw [hr] at h
          rcases List.mem_cons.mp h with h | h
          · exact Or.inl ⟨_, h⟩
          · exact ih it h
        | error err =>
          have hr : readLoop decode (Except.ok (WsMessage.Text s) :: rest)
              = [Except.error (Error.Deserialization err)] := by simp [readLoop, hd]
          rw [hr, List.mem_singleton] at h
          exact Or.inr (Or.inr (Or.inl ⟨_, h⟩))

/-- C8 counterexample: when the websocket reader itself yields a transport
error, the read loop yields a `ConnectFailed` error as an item of the
produced sequence (the `msg?` conversion through
`From<tungstenite::Error>`), so `ConnectFailed` is not confined to the
synchronous open operation. -/
theorem connect_failed_appears_as_stream_item :
    readLoop exampleDecode [Except.error "io error"]
      = [Except.error (Error.ConnectFailed "io error")]
    ∧ Except.error (Error.ConnectFailed "io error")
        ∈ readLoop exampleDecode [Except.error "io error"] := by
  refine ⟨rfl, ?_⟩
  simp [readLoop]

/-- C8 as amended: no item of the produced sequence is ever `EmptyOptions`
or `ConnectRejected` — every item is an `Ok`, a `ConnectionClosed`, a
`Deserialization`, or a `ConnectFailed` wrapping a mid-stream transport
error of the reader. -/
theorem stream_items_never_sync_open_errors {T : Type}
    (decode : String → Except String T) (evs : List ReaderEvent)
    (it : Except Error T) (h : it ∈ readLoop decode evs) :
    it ≠ Except.error Error.EmptyOptions
    ∧ (∀ st r, it ≠ Except.error (Error.ConnectRejected st r))
    ∧ ((∃ v, it = Except.ok v)
      ∨ (∃ r, it = Except.error (Error.ConnectionClosed r))
      ∨ (∃ e, it = Except.error (Error.Deserialization e))
      ∨ (∃ e, it = Except.error (Error.ConnectFailed e))) := by
  have hs := readLoop_item_shape decode evs it h
  refine ⟨?_, ?_, hs⟩
  · rcases hs with ⟨v, rfl⟩ | ⟨r, rfl⟩ | ⟨e, rfl⟩ | ⟨e, rfl⟩ <;> simp
  · intro st r
    rcases hs with ⟨v, rfl⟩ | ⟨r2, rfl⟩ | ⟨e, rfl⟩ | ⟨e, rfl⟩ <;> simp

/-- Witness for the amended C8 at the EOF-terminated empty session. -/
theorem stream_items_never_sync_open_errors_witness :
    (Except.error (Error.ConnectionClosed "Unknown reason")
        ∈ readLoop exampleDecode ([] : List ReaderEvent))
    ∧ ((Except.error (Error.ConnectionClosed "Unknown reason") : Except Error Nat)
          ≠ Except.error Error.EmptyOptions
      ∧ (∀ st r, (Except.error (Error.ConnectionClosed "Unknown reason") : Except Error Nat)
          ≠ Except.error (Error.ConnectRejected st r))
      ∧ ((∃ v, (Except.error (Error.ConnectionClosed "Unknown reason") : Except Error Nat)
            = Except.ok v)
        ∨ (∃ r, (Except.error (Error.ConnectionClosed "Unknown reason") : Except Error Nat)
            = Except.error (Error.ConnectionClosed r))
        ∨ (∃ e, (Except.error (Error.ConnectionClosed "Unknown reason") : Except Error Nat)
            = Except.error (Error.Deserialization e))
        ∨ (∃ e, (Except.error (Error.ConnectionClosed "Unknown reason") : Except Error Nat)
            = Except.error (Error.ConnectFailed e)))) :=
  ⟨by simp [readLoop],
    stream_items_never_sync_open_errors exampleDecode [] _ (by simp [readLoop])⟩

theorem length_padZeros (w : Nat) (s : String) : w ≤ (padZeros w s).length := by
  simp only [padZeros, String.length_append, String.length_mk, List.length_replicate]
  omega

/-- C10: the serialized replay options carry the `from` and `to` bounds as
chrono RFC 3339 renderings, and every such rendering is a full instant:
it contains the `T` date-time separator, is at least 20 characters long,
and is never the date-only `YYYY-MM-DD` rendering of the same instant. -/
theorem replay_bounds_full_instants (o : ReplayNormalizedRequestOptions) :
    (serializeReplayOptions o).lookupField "from"
        = some (Json.str o.«from».toRfc3339)
    ∧ (serializeReplayOptions o).lookupField "to"
        = some (Json.str o.«to».toRfc3339)
    ∧ (∀ dt : DateTimeUtc,
        'T' ∈ dt.toRfc3339.data
        ∧ 20 ≤ dt.toRfc3339.length
        ∧ dt.toRfc3339 ≠ pad4 dt.year ++ "-" ++ pad2 dt.month ++ "-" ++ pad2 dt.day) := by
  refine ⟨?_, ?_, ?_⟩
  · cases hs : o.symbols <;>
      simp [serializeReplayOptions, Json.lookupField, hs, List.lookup]
  · cases hs : o.symbols <;>
      simp [serializeReplayOptions, Json.lookupField, hs, List.lookup]
  · intro dt
    refine ⟨?_, ?_, ?_⟩
    · have hT : 'T' ∈ "T".data := by decide
      simp only [DateTimeUtc.toRfc3339, String.data_append, List.mem_append]
      tauto
    · have h1 := length_padZeros 4 (Nat.repr dt.year)
      have h2 := length_padZeros 2 (Nat.repr dt.month)
      have h3 := length_padZeros 2 (Nat.repr dt.day)
      have h4 := length_padZeros 2 (Nat.repr dt.hour)
      have h5 := length_padZeros 2 (Nat.repr dt.minute)
      have h6 := length_padZeros 2 (Nat.repr dt.second)
      have hd : ("-" : String).length = 1 := rfl
      have hc : (":" : String).length = 1 := rfl
      have ht : ("T" : String).length = 1 := rfl
      have hz : ("Z" : String).length = 1 := rfl
      simp only [DateTimeUtc.toRfc3339, pad4, pad2, String.length_append,
        hd, hc, ht, hz]
      omega
    · intro heq
      have hlen := congrArg String.length heq
      have hd : ("-" : String).length = 1 := rfl
      have hc : (":" : String).length = 1 := rfl
      have ht : ("T" : String).length = 1 := rfl
      have hz : ("Z" : String).length = 1 := rfl
      simp only [DateTimeUtc.toRfc3339, String.length_append, hd, hc, ht, hz] at hlen
      omega

/-- Witness for C10 at the options of the repository's own replay test:
both bounds are rendered as full instants with a time component. -/
theorem replay_bounds_full_instants_witness :
    (serializeReplayOptions exampleReplayOptions).lookupField "from"
        = some (Json.str "2022-10-01T00:00:00Z")
    ∧ (serializeReplayOptions exampleReplayOptions).lookupField "to"
        = some (Json.str "2022-10-02T00:00:00Z")
    ∧ 'T' ∈ ("2022-10-01T00:00:00Z" : String).data
    ∧ 20 ≤ ("2022-10-01T00:00:00Z" : String).length := by
  have h := replay_bounds_full_instants exampleReplayOptions
  have hfrom : exampleReplayOptions.«from».toRfc3339 = "2022-10-01T00:00:00Z" := by rfl
  have hto : exampleReplayOptions.«to».toRfc3339 = "2022-10-02T00:00:00Z" := by rfl
  refine ⟨?_, ?_, ?_, ?_⟩
  · rw [h.1, hfrom]
  · rw [h.2.1, hto]
  · have hm := (h.2.2 exampleReplayOptions.«from»).1
    rwa [hfrom] at hm
  · have hl := (h.2.2 exampleReplayOptions.«from»).2.1
    rwa [hfrom] at hl

end TardisRs
